import Mathlib

/-!
Shallow embedding of the container-swap tool (`src/main.go`): a controller
that locates a running container, snapshots its configuration, tears it
down, starts a derived development container, waits for a termination
event, tears the dev container down and recreates the original.

Pure data transformations (the configuration deriver, the clone-target
computation, the name lookup) are embedded as Lean functions; the
fatal/panic early exits of the Go source are embedded as `Option` results
or as explicit outcomes in a trace model of `main`.
-/

namespace DockerDev

/-! ## Data model (docker API types, restricted to the fields the program touches) -/

/-- One mount entry (`mount.Mount` with the fields the program sets). -/
structure Mount where
  type : String
  source : String
  target : String
deriving Repr, DecidableEq

/-- `container.Config`, restricted to the fields the program reads or writes,
plus representative fields (`user`, `labels`) that it carries over untouched. -/
structure Config where
  image : String
  workingDir : String
  cmd : List String
  entrypoint : List String
  env : List String
  attachStdin : Bool
  attachStdout : Bool
  attachStderr : Bool
  tty : Bool
  openStdin : Bool
  stdinOnce : Bool
  user : String
  labels : List (String × String)
deriving Repr, DecidableEq

/-- `container.HostConfig`: the mount list the program replaces, plus a
representative carried-over field (`binds`). -/
structure HostConfig where
  mounts : List Mount
  binds : List String
deriving Repr, DecidableEq

/-- `network.NetworkingConfig`: the endpoints map, modelled as an association
list from network name to (opaque) endpoint settings. -/
structure NetworkingConfig where
  endpointsConfig : List (String × String)
deriving Repr, DecidableEq

/-- `types.ContainerJSON` as used by the program: config, host config, name,
and `NetworkSettings.Networks`. -/
structure ContainerJSON where
  config : Config
  hostConfig : HostConfig
  name : String
  networks : List (String × String)
deriving Repr, DecidableEq

/-- A summary entry of `cli.ContainerList` output: ID and name list. -/
structure ContainerSummary where
  id : String
  names : List String
deriving Repr, DecidableEq

/-- The argument tuple of a `ContainerCreate` call. -/
structure CreateArgs where
  config : Config
  hostConfig : HostConfig
  networkingConfig : NetworkingConfig
  name : String
deriving Repr, DecidableEq

/-! ## Go slices: aliasing model for the environment list

`devContainerConfiguration` copies the snapshot's `Config` struct by value;
the copy shares the `Env` slice's backing array with the snapshot.  An
`append` on the copy may write into that shared backing array (when spare
capacity exists) — the snapshot's own header keeps its old length, so its
observable view must be unaffected.  We model a slice header as a backing
array plus a length, and `append` with Go's in-place-when-capacity rule. -/

/-- A Go slice header over a backing array: `backing` is the full array up to
the capacity, `len` the slice's length. -/
structure GoSlice (α : Type) where
  backing : List α
  len : Nat
deriving Repr, DecidableEq

/-- The observable elements of a slice header. -/
def GoSlice.view {α : Type} (s : GoSlice α) : List α :=
  s.backing.take s.len

/-- Go `append`: write in place when the backing array has spare capacity,
otherwise reallocate. -/
def goAppend {α : Type} (s : GoSlice α) (x : α) : GoSlice α :=
  if s.len < s.backing.length then ⟨s.backing.set s.len x, s.len + 1⟩
  else ⟨s.backing.take s.len ++ [x], s.len + 1⟩

/-- The backing array after the deriver's two appends to the (possibly
shared) environment slice: the derived `PATH` entry, then the marker. -/
def envBackingAfterDerive (s : GoSlice String) (path : String) : List String :=
  (goAppend (goAppend s path) "DEV_CONTAINER=true").backing

/-! ## Configuration deriver (`devContainerConfiguration`, src/main.go 164-224) -/

/-- The toolchain directories appended to `PATH` (src/main.go line 180). -/
def toolchainSuffix : String := ":/go/bin:/usr/local/go/bin"

/-- The scan `for _, env := range config.Env { if env[:4] == "PATH" ... }`
(src/main.go 174-179).  Go's `env[:4]` faults when the entry is shorter than
4 bytes; that fault is modelled as `none`.  `some none` means the loop ended
without a match; `some (some e)` is the first matching entry. -/
def findPathEntry : List String → Option (Option String)
  | [] => some none
  | e :: rest =>
    if e.length < 4 then none
    else if e.take 4 = "PATH" then some (some e)
    else findPathEntry rest

/-- The environment transformation of the deriver (src/main.go 172-182):
locate the `PATH`-prefixed entry (empty string when absent), append the
toolchain suffix to it, and append that entry plus the marker variable. -/
def deriveEnv (env : List String) : Option (List String) :=
  (findPathEntry env).map (fun found =>
    let path := found.getD "" ++ toolchainSuffix
    env ++ [path, "DEV_CONTAINER=true"])

/-- The replacement mount list (src/main.go 192-216): source tree, SSH keys,
git configuration, go package cache. -/
def devMounts (home sourcePath targetPath : String) : List Mount :=
  [ { type := "bind", source := sourcePath, target := targetPath },
    { type := "bind", source := home ++ "/.ssh", target := "/root/.ssh" },
    { type := "bind", source := home ++ "/.gitconfig", target := "/root/.gitconfig" },
    { type := "bind", source := home ++ "/go/pkg", target := "/go/pkg" } ]

/-- `devContainerConfiguration` (src/main.go 164-224): copy of the snapshot's
config with image/workingDir/cmd/entrypoint replaced, environment augmented
(`none` when the environment scan faults), interactive flags forced; copy of
the host config with the mount list replaced; networking config carrying the
snapshot's networks.  `home` stands for `os.Getenv("HOME")`. -/
def devContainerConfiguration (cj : ContainerJSON)
    (newImage sourcePath targetPath home : String) :
    Option (Config × HostConfig × NetworkingConfig) :=
  (deriveEnv cj.config.env).map (fun env' =>
    ({ cj.config with
        image := newImage
        workingDir := targetPath
        cmd := []
        entrypoint := ["/bin/sh"]
        env := env'
        attachStdin := true
        attachStdout := true
        attachStderr := true
        tty := true
        openStdin := true
        stdinOnce := true },
     { cj.hostConfig with mounts := devMounts home sourcePath targetPath },
     { endpointsConfig := cj.networks }))

/-- The `ContainerCreate` arguments of `recreateOriginalContainer`
(src/main.go 57): the snapshot's config, host config and name, plus the
networking config passed in by `main`. -/
def recreateCreateArgs (cj : ContainerJSON) (nc : NetworkingConfig) : CreateArgs :=
  { config := cj.config, hostConfig := cj.hostConfig, networkingConfig := nc, name := cj.name }

/-! ## Name lookup (`getContainerIDByName`, src/main.go 23-38) -/

/-- The inner loop over one container's name list: docker names carry a
leading slash. -/
def nameMatches : List String → String → Bool
  | [], _ => false
  | n :: rest, containerName =>
    if n = "/" ++ containerName then true else nameMatches rest containerName

/-- `getContainerIDByName`: the ID of the first listed container one of whose
names is `"/" ++ containerName`; `none` when no container matches. -/
def getContainerIDByName : List ContainerSummary → String → Option String
  | [], _ => none
  | c :: rest, containerName =>
    if nameMatches c.names containerName then some c.id
    else getContainerIDByName rest containerName

/-- Spec-side restatement of the lookup: the first listed container whose
name list contains the separator-prefixed form, via `List.find?`. -/
def specFirstMatch (containers : List ContainerSummary) (containerName : String) :
    Option String :=
  (containers.find? (fun c => c.names.contains ("/" ++ containerName))).map ContainerSummary.id

/-! ## Clone target computation (`cloneRemoteRepo`, src/main.go 136-162) -/

/-- Go's `strings.LastIndex` for a one-character needle: the index of the
last occurrence, `-1` when absent. -/
def lastIndexOf : List Char → Char → Int
  | [], _ => -1
  | x :: rest, c =>
    let r := lastIndexOf rest c
    if 0 ≤ r then r + 1
    else if x = c then 0
    else -1

/-- Go's string slicing `s[lo:hi]`: defined when `0 ≤ lo ≤ hi ≤ len s`,
a slice-bounds fault (`none`) otherwise. -/
def goStringSlice (s : String) (lo hi : Int) : Option String :=
  if 0 ≤ lo ∧ lo ≤ hi ∧ hi ≤ (s.data.length : Int) then
    some (String.mk ((s.data.drop lo.toNat).take (hi - lo).toNat))
  else none

/-- The target directory computed by `cloneRemoteRepo` (src/main.go 137-139):
`"/tmp/" ++ repoURL[strings.LastIndex(repoURL, "/")+1 : strings.LastIndex(repoURL, ".")]`,
`none` when the slicing faults. -/
def cloneTargetDir (remote : String) : Option String :=
  let lo := lastIndexOf remote.data '/' + 1
  let hi := lastIndexOf remote.data '.'
  (goStringSlice remote lo hi).map (fun repoName => "/tmp" ++ "/" ++ repoName)

/-- Spec-side target directory, following the claim's words: strip the URL
up to the last `/`, then strip the `.git` suffix when present. -/
def specCloneTargetDir (remote : String) : String :=
  let base := remote.data.drop ((lastIndexOf remote.data '/') + 1).toNat
  let repoName :=
    if 4 ≤ base.length ∧ base.drop (base.length - 4) = ['.', 'g', 'i', 't'] then
      base.take (base.length - 4)
    else base
  "/tmp/" ++ String.mk repoName

/-! ## Session signal coordinator (src/main.go 117-124, 275-287)

`sigCh := make(chan os.Signal, 1)` is a buffered channel of capacity one;
the external interrupt (via `signal.Notify`), the container-wait watcher
goroutine and the attach watcher goroutine all send to it, and the main
thread performs a single receive (`<-sigCh`, line 287). -/

/-- A termination source: external interrupt, the dev container's own exit
observed by the wait watcher, or the attach process's completion reported as
a synthetic interrupt. -/
inductive TermSource
  | externalInterrupt
  | devContainerExit
  | attachInterrupt
deriving Repr, DecidableEq

/-- A buffered channel: capacity and current buffer contents. -/
structure SigChan where
  cap : Nat
  buf : List TermSource
deriving Repr, DecidableEq

/-- `make(chan os.Signal, 1)` (src/main.go 275). -/
def mkSigChan : SigChan := { cap := 1, buf := [] }

/-- One send: enqueue when the buffer has room, otherwise the sender stays
blocked (`false`). -/
def SigChan.trySend (ch : SigChan) (e : TermSource) : SigChan × Bool :=
  if ch.buf.length < ch.cap then ({ ch with buf := ch.buf ++ [e] }, true)
  else (ch, false)

/-- Deliver a sequence of source firings in order; senders that find the
buffer full remain blocked and are returned undelivered. -/
def deliverAll (ch : SigChan) : List TermSource → SigChan × List TermSource
  | [] => (ch, [])
  | e :: rest =>
    let s := ch.trySend e
    let r := deliverAll s.1 rest
    (r.1, if s.2 then r.2 else e :: r.2)

/-- One receive from the channel. -/
def SigChan.receive (ch : SigChan) : Option (TermSource × SigChan) :=
  match ch.buf with
  | [] => none
  | e :: rest => some (e, { ch with buf := rest })

/-- The events the lifecycle controller observes: all firings are delivered
to the single-slot channel, and the controller performs exactly one receive
(src/main.go 287). -/
def controllerObserved (firings : List TermSource) : List TermSource :=
  match ((deliverAll mkSigChan firings).1).receive with
  | none => []
  | some (e, _) => [e]

/-! ## Trace model of `main` (src/main.go 232-293)

`main` is straight-line code whose only branching is on the outcome of each
external call.  We record the sequence of externally visible operations the
main control flow performs, together with how the process ends: normal
completion, `log.Fatalf` (non-zero exit) or `panic`. -/

/-- The externally visible operations of one run, in program order. -/
inductive Op
  | statDir
  | removeDir
  | gitClone
  | listContainers
  | inspectOriginal
  | stopOriginal
  | waitOriginal
  | removeOriginal
  | createDev
  | attachDev
  | startDev
  | inspectDev
  | stopDev
  | waitDev
  | removeDev
  | createOriginal
  | startOriginal
deriving Repr, DecidableEq

/-- How the process ends: full completion, `log.Fatalf`, or `panic`. -/
inductive Outcome
  | completed
  | fatalExit
  | panicked
deriving Repr, DecidableEq

/-- A (partial) run: the operations performed and how it ended. -/
structure Run where
  ops : List Op
  outcome : Outcome
deriving Repr, DecidableEq

/-- Sequencing: a later stage runs only when the earlier one completed. -/
def Run.seq (r s : Run) : Run :=
  match r.outcome with
  | .completed => { ops := r.ops ++ s.ops, outcome := s.outcome }
  | _ => r

/-- How the attach subprocess (`docker attach`, run in a goroutine,
src/main.go 117-124) ends during RUN: a clean exit, or an error. -/
inductive AttachResult
  | exitOk
  | exitErr
deriving Repr, DecidableEq

/-- One run's inputs and external-call outcomes: the flag values, the
container listing, and a success bit for every runtime call `main` makes.
`stopDevOk` is carried even though `cleanupDevContainer` discards the stop
call's error (src/main.go 77). -/
structure World where
  remote : String
  source : String
  nameArg : String
  targetDirExists : Bool
  cloneOk : Bool
  clientOk : Bool
  containers : List ContainerSummary
  inspectOk : Bool
  stopOrigOk : Bool
  removeOrigOk : Bool
  createDevOk : Bool
  startDevOk : Bool
  attach : AttachResult
  inspectDevOk : Bool
  devRunning : Bool
  stopDevOk : Bool
  removeDevOk : Bool
  createOrigOk : Bool
  startOrigOk : Bool

/-- The clone stage of `main` as a function of its branch conditions.
When `-remote` is empty nothing runs (src/main.go 242); otherwise
`cloneRemoteRepo` (src/main.go 136-162) computes the target directory (a
slice-bounds fault panics), removes it when it already exists, then runs
`git clone` (`log.Fatalf` on failure). -/
def cloneStageB (remoteEmpty targetNone dirExists cloneOk : Bool) : Run :=
  if remoteEmpty then { ops := [], outcome := .completed }
  else if targetNone then { ops := [], outcome := .panicked }
  else
    { ops := [Op.statDir] ++ (if dirExists then [Op.removeDir] else []) ++ [Op.gitClone]
      outcome := if cloneOk then .completed else .fatalExit }

/-- The clone stage of `main` (src/main.go 242-244). -/
def cloneStage (w : World) : Run :=
  cloneStageB (decide (w.remote = "")) (decide (cloneTargetDir w.remote = none))
    w.targetDirExists w.cloneOk

/-- The effective source path after the clone stage (src/main.go 242-244):
the clone target directory overrides `-source` when `-remote` is set. -/
def effectiveSource (w : World) : String :=
  if w.remote = "" then w.source
  else (cloneTargetDir w.remote).getD w.source

/-- `main` from the `-name` check onward (src/main.go 246-293), as a
function of its branch conditions: name-flag validation, docker client
creation, lookup, snapshot inspect, teardown of the original, dev container
create/attach/start, the RUN wait (an attach error `log.Fatalf`s from the
watcher goroutine, src/main.go 120), `cleanupDevContainer` (inspect panics
on failure, the stop call's error is discarded, remove `log.Fatalf`s on
failure) and `recreateOriginalContainer`. -/
def coreStageB (nameEmpty clientOk lookupNone inspectOk stopOrigOk removeOrigOk
    createDevOk startDevOk attachErr inspectDevOk devRunning removeDevOk
    createOrigOk startOrigOk : Bool) : Run :=
  if nameEmpty then { ops := [], outcome := .fatalExit }
  else if clientOk = false then { ops := [], outcome := .fatalExit }
  else if lookupNone then { ops := [.listContainers], outcome := .fatalExit }
  else if inspectOk = false then
    { ops := [.listContainers, .inspectOriginal], outcome := .fatalExit }
  else if stopOrigOk = false then
    { ops := [.listContainers, .inspectOriginal, .stopOriginal], outcome := .fatalExit }
  else if removeOrigOk = false then
    { ops := [.listContainers, .inspectOriginal, .stopOriginal, .waitOriginal,
              .removeOriginal], outcome := .fatalExit }
  else if createDevOk = false then
    { ops := [.listContainers, .inspectOriginal, .stopOriginal, .waitOriginal,
              .removeOriginal, .createDev], outcome := .fatalExit }
  else if startDevOk = false then
    { ops := [.listContainers, .inspectOriginal, .stopOriginal, .waitOriginal,
              .removeOriginal, .createDev, .attachDev, .startDev], outcome := .fatalExit }
  else if attachErr then
    { ops := [.listContainers, .inspectOriginal, .stopOriginal, .waitOriginal,
              .removeOriginal, .createDev, .attachDev, .startDev], outcome := .fatalExit }
  else if inspectDevOk = false then
    { ops := [.listContainers, .inspectOriginal, .stopOriginal, .waitOriginal,
              .removeOriginal, .createDev, .attachDev, .startDev, .inspectDev],
      outcome := .panicked }
  else if removeDevOk = false then
    { ops := [.listContainers, .inspectOriginal, .stopOriginal, .waitOriginal,
              .removeOriginal, .createDev, .attachDev, .startDev, .inspectDev] ++
             (if devRunning then [Op.stopDev, Op.waitDev] else []) ++ [Op.removeDev],
      outcome := .fatalExit }
  else if createOrigOk = false then
    { ops := [.listContainers, .inspectOriginal, .stopOriginal, .waitOriginal,
              .removeOriginal, .createDev, .attachDev, .startDev, .inspectDev] ++
             (if devRunning then [Op.stopDev, Op.waitDev] else []) ++
             [Op.removeDev, Op.createOriginal],
      outcome := .fatalExit }
  else if startOrigOk = false then
    { ops := [.listContainers, .inspectOriginal, .stopOriginal, .waitOriginal,
              .removeOriginal, .createDev, .attachDev, .startDev, .inspectDev] ++
             (if devRunning then [Op.stopDev, Op.waitDev] else []) ++
             [Op.removeDev, Op.createOriginal, Op.startOriginal],
      outcome := .fatalExit }
  else
    { ops := [.listContainers, .inspectOriginal, .stopOriginal, .waitOriginal,
              .removeOriginal, .createDev, .attachDev, .startDev, .inspectDev] ++
             (if devRunning then [Op.stopDev, Op.waitDev] else []) ++
             [Op.removeDev, Op.createOriginal, Op.startOriginal],
      outcome := .completed }

/-- `main` from the `-name` check onward, on one run's world. -/
def coreStage (w : World) : Run :=
  coreStageB (decide (w.nameArg = "")) w.clientOk
    (decide (getContainerIDByName w.containers w.nameArg = none))
    w.inspectOk w.stopOrigOk w.removeOrigOk w.createDevOk w.startDevOk
    (decide (w.attach = .exitErr)) w.inspectDevOk w.devRunning w.removeDevOk
    w.createOrigOk w.startOrigOk

/-- The whole of `main`: the clone stage (before `-name` validation,
src/main.go 242-248) followed by the rest. -/
def mainRun (w : World) : Run :=
  (cloneStage w).seq (coreStage w)

/-- The run reaches the RUN phase: clone stage completed, flags valid,
client created, lookup and snapshot succeeded, the original was torn down
and the dev container was created and started. -/
def runReached (w : World) : Prop :=
  (cloneStage w).outcome = .completed ∧ w.nameArg ≠ "" ∧ w.clientOk = true ∧
  (getContainerIDByName w.containers w.nameArg).isSome ∧ w.inspectOk = true ∧
  w.stopOrigOk = true ∧ w.removeOrigOk = true ∧ w.createDevOk = true ∧ w.startDevOk = true

instance (w : World) : Decidable (runReached w) := by
  unfold runReached
  infer_instance

/-! ## Helper lemmas -/

theorem take_set_of_le {α : Type} (l : List α) (m n : Nat) (x : α) (h : n ≤ m) :
    (l.set m x).take n = l.take n := by
  induction l generalizing m n with
  | nil => simp
  | cons a t ih =>
    cases m with
    | zero =>
      have hn : n = 0 := Nat.le_zero.mp h
      subst hn
      simp
    | succ m' =>
      cases n with
      | zero => simp
      | succ n' => simpa using ih m' n' (Nat.succ_le_succ_iff.mp h)

theorem goAppend_len {α : Type} (s : GoSlice α) (x : α) :
    (goAppend s x).len = s.len + 1 := by
  unfold goAppend
  split <;> rfl

theorem goAppend_wf {α : Type} (s : GoSlice α) (x : α)
    (hs : s.len ≤ s.backing.length) :
    (goAppend s x).len ≤ (goAppend s x).backing.length := by
  unfold goAppend
  split_ifs with h
  · simpa using h
  · simp only [List.length_append, List.length_take, List.length_cons, List.length_nil]
    omega

theorem goAppend_take {α : Type} (s : GoSlice α) (x : α) (n : Nat)
    (hn : n ≤ s.len) (hs : s.len ≤ s.backing.length) :
    (goAppend s x).backing.take n = s.backing.take n := by
  unfold goAppend
  split_ifs with h
  · exact take_set_of_le s.backing s.len n x hn
  · have hlen : n ≤ (s.backing.take s.len).length := by
      simp only [List.length_take]
      omega
    show (s.backing.take s.len ++ [x]).take n = s.backing.take n
    rw [List.take_append_of_le_length hlen, List.take_take]
    congr 1
    omega

theorem envBackingAfterDerive_view (s : GoSlice String) (path : String)
    (hs : s.len ≤ s.backing.length) :
    GoSlice.view { backing := envBackingAfterDerive s path, len := s.len } = s.view := by
  unfold envBackingAfterDerive GoSlice.view
  have h1 : (goAppend s path).backing.take s.len = s.backing.take s.len :=
    goAppend_take s path s.len le_rfl hs
  have hwf1 : (goAppend s path).len ≤ (goAppend s path).backing.length :=
    goAppend_wf s path hs
  have hle : s.len ≤ (goAppend s path).len := by
    rw [goAppend_len]
    omega
  have h2 := goAppend_take (goAppend s path) "DEV_CONTAINER=true" s.len hle hwf1
  simpa [h2] using h1

theorem findPathEntry_of_no_path (env : List String)
    (h : ∀ e ∈ env, 4 ≤ e.length ∧ e.take 4 ≠ "PATH") :
    findPathEntry env = some none := by
  induction env with
  | nil => rfl
  | cons e rest ih =>
    obtain ⟨h1, h2⟩ := h e (by simp)
    have : ¬ e.length < 4 := by omega
    simp only [findPathEntry, if_neg this, if_neg h2]
    exact ih (fun x hx => h x (by simp [hx]))

theorem devConfig_parts (cj : ContainerJSON) (img src tgt home : String)
    (out : Config × HostConfig × NetworkingConfig)
    (h : devContainerConfiguration cj img src tgt home = some out) :
    out.2.1 = { cj.hostConfig with mounts := devMounts home src tgt } ∧
    out.2.2 = { endpointsConfig := cj.networks } := by
  unfold devContainerConfiguration at h
  cases hd : deriveEnv cj.config.env with
  | none => rw [hd] at h; simp at h
  | some e =>
    rw [hd] at h
    simp only [Option.map_some'] at h
    obtain rfl := Option.some.inj h
    exact ⟨rfl, rfl⟩

theorem nameMatches_eq_contains (names : List String) (n : String) :
    nameMatches names n = names.contains ("/" ++ n) := by
  induction names with
  | nil => rfl
  | cons x rest ih =>
    by_cases h : x = "/" ++ n
    · simp [nameMatches, h, List.contains_cons]
    · have h' : ¬ ("/" ++ n) = x := fun he => h he.symm
      simp [nameMatches, h, ih, List.contains_cons, h']

theorem getContainerIDByName_eq_specFirstMatch (cs : List ContainerSummary) (n : String) :
    getContainerIDByName cs n = specFirstMatch cs n := by
  induction cs with
  | nil => rfl
  | cons c rest ih =>
    by_cases h : nameMatches c.names n = true
    · have hc : (fun c : ContainerSummary => c.names.contains ("/" ++ n)) c = true := by
        simp only []
        rw [← nameMatches_eq_contains]
        exact h
      simp only [getContainerIDByName, if_pos h, specFirstMatch]
      rw [List.find?_cons_of_pos rest hc, Option.map_some']
    · have hc : ¬ (fun c : ContainerSummary => c.names.contains ("/" ++ n)) c = true := by
        simp only []
        rw [← nameMatches_eq_contains]
        exact h
      simp only [getContainerIDByName, if_neg h, ih, specFirstMatch]
      rw [List.find?_cons_of_neg rest hc]

theorem deliverAll_of_full (l : List TermSource) (ch : SigChan)
    (h : ¬ ch.buf.length < ch.cap) :
    deliverAll ch l = (ch, l) := by
  induction l with
  | nil => rfl
  | cons e rest ih =>
    simp [deliverAll, SigChan.trySend, h, ih]

theorem cloneStage_ops_mem (w : World) (o : Op) (h : o ∈ (cloneStage w).ops) :
    o = .statDir ∨ o = .removeDir ∨ o = .gitClone := by
  unfold cloneStage cloneStageB at h
  split_ifs at h <;> simp at h <;> tauto

theorem mainRun_of_cloneDone (w : World) (h : (cloneStage w).outcome = .completed) :
    mainRun w = { ops := (cloneStage w).ops ++ (coreStage w).ops,
                  outcome := (coreStage w).outcome } := by
  unfold mainRun Run.seq
  rw [h]

theorem mainRun_of_cloneStuck (w : World) (h : (cloneStage w).outcome ≠ .completed) :
    mainRun w = cloneStage w := by
  unfold mainRun Run.seq
  cases hc : (cloneStage w).outcome with
  | completed => exact absurd hc h
  | fatalExit => rfl
  | panicked => rfl

theorem notin_cloneStage (w : World) (o : Op) (h1 : o ≠ .statDir)
    (h2 : o ≠ .removeDir) (h3 : o ≠ .gitClone) : o ∉ (cloneStage w).ops := by
  intro hm
  rcases cloneStage_ops_mem w o hm with h | h | h
  · exact h1 h
  · exact h2 h
  · exact h3 h

/-- `coreStage` unfolded to its branch-condition arguments. -/
theorem coreStage_eq (w : World) :
    coreStage w = coreStageB (decide (w.nameArg = "")) w.clientOk
      (decide (getContainerIDByName w.containers w.nameArg = none))
      w.inspectOk w.stopOrigOk w.removeOrigOk w.createDevOk w.startDevOk
      (decide (w.attach = .exitErr)) w.inspectDevOk w.devRunning w.removeDevOk
      w.createOrigOk w.startOrigOk := rfl

theorem coreStageB_tail_order (b5 b6 b7 b8 b9 b10 b11 b12 b13 b14 : Bool) :
    List.Sublist [Op.inspectOriginal, Op.stopOriginal]
      (coreStageB false true false true b5 b6 b7 b8 b9 b10 b11 b12 b13 b14).ops ∧
    (Op.removeOriginal ∈ (coreStageB false true false true b5 b6 b7 b8 b9 b10 b11 b12 b13 b14).ops →
      List.Sublist [Op.inspectOriginal, Op.removeOriginal]
        (coreStageB false true false true b5 b6 b7 b8 b9 b10 b11 b12 b13 b14).ops) := by
  revert b5 b6 b7 b8 b9 b10 b11 b12 b13 b14
  decide

theorem coreStage_snapshot_order (w : World) :
    (Op.stopOriginal ∈ (coreStage w).ops →
      List.Sublist [Op.inspectOriginal, Op.stopOriginal] (coreStage w).ops) ∧
    (Op.removeOriginal ∈ (coreStage w).ops →
      List.Sublist [Op.inspectOriginal, Op.removeOriginal] (coreStage w).ops) := by
  by_cases c1 : w.nameArg = ""
  · have hk : coreStage w = { ops := [], outcome := .fatalExit } := by
      rw [coreStage_eq w, decide_eq_true c1]
      rfl
    rw [hk]
    decide
  · cases c2 : w.clientOk with
    | false =>
      have hk : coreStage w = { ops := [], outcome := .fatalExit } := by
        rw [coreStage_eq w, decide_eq_false c1, c2]
        rfl
      rw [hk]
      decide
    | true =>
      cases hL : getContainerIDByName w.containers w.nameArg with
      | none =>
        have e3 : decide (getContainerIDByName w.containers w.nameArg = none) = true := by
          simp [hL]
        have hk : coreStage w = { ops := [.listContainers], outcome := .fatalExit } := by
          rw [coreStage_eq w, decide_eq_false c1, c2, e3]
          rfl
        rw [hk]
        decide
      | some id =>
        have e3 : decide (getContainerIDByName w.containers w.nameArg = none) = false := by
          simp [hL]
        cases c4 : w.inspectOk with
        | false =>
          have hk : coreStage w =
              { ops := [.listContainers, .inspectOriginal], outcome := .fatalExit } := by
            rw [coreStage_eq w, decide_eq_false c1, c2, e3, c4]
            rfl
          rw [hk]
          decide
        | true =>
          have hk : coreStage w = coreStageB false true false true w.stopOrigOk
              w.removeOrigOk w.createDevOk w.startDevOk (decide (w.attach = .exitErr))
              w.inspectDevOk w.devRunning w.removeDevOk w.createOrigOk w.startOrigOk := by
            rw [coreStage_eq w, decide_eq_false c1, c2, e3, c4]
          rw [hk]
          have h := coreStageB_tail_order w.stopOrigOk w.removeOrigOk w.createDevOk
            w.startDevOk (decide (w.attach = .exitErr)) w.inspectDevOk w.devRunning
            w.removeDevOk w.createOrigOk w.startOrigOk
          exact ⟨fun _ => h.1, h.2⟩

theorem coreStage_inspectFail (w : World) (h : w.inspectOk = false) :
    Op.stopOriginal ∉ (coreStage w).ops ∧ Op.removeOriginal ∉ (coreStage w).ops ∧
    (coreStage w).outcome = .fatalExit := by
  by_cases c1 : w.nameArg = ""
  · have hk : coreStage w = { ops := [], outcome := .fatalExit } := by
      rw [coreStage_eq w, decide_eq_true c1]
      rfl
    rw [hk]
    decide
  · cases c2 : w.clientOk with
    | false =>
      have hk : coreStage w = { ops := [], outcome := .fatalExit } := by
        rw [coreStage_eq w, decide_eq_false c1, c2]
        rfl
      rw [hk]
      decide
    | true =>
      cases hL : getContainerIDByName w.containers w.nameArg with
      | none =>
        have e3 : decide (getContainerIDByName w.containers w.nameArg = none) = true := by
          simp [hL]
        have hk : coreStage w = { ops := [.listContainers], outcome := .fatalExit } := by
          rw [coreStage_eq w, decide_eq_false c1, c2, e3]
          rfl
        rw [hk]
        decide
      | some id =>
        have e3 : decide (getContainerIDByName w.containers w.nameArg = none) = false := by
          simp [hL]
        have hk : coreStage w =
            { ops := [.listContainers, .inspectOriginal], outcome := .fatalExit } := by
          rw [coreStage_eq w, decide_eq_false c1, c2, e3, h]
          rfl
        rw [hk]
        decide

theorem coreStageB_attachErr (i d r c s : Bool) :
    coreStageB false true false true true true true true true i d r c s =
      { ops := [.listContainers, .inspectOriginal, .stopOriginal, .waitOriginal,
                .removeOriginal, .createDev, .attachDev, .startDev],
        outcome := .fatalExit } := rfl

theorem coreStage_attachErr (w : World) (h2 : ¬ w.nameArg = "")
    (h3 : w.clientOk = true) (id : String)
    (h4 : getContainerIDByName w.containers w.nameArg = some id)
    (h5 : w.inspectOk = true) (h6 : w.stopOrigOk = true) (h7 : w.removeOrigOk = true)
    (h8 : w.createDevOk = true) (h9 : w.startDevOk = true)
    (ha : w.attach = .exitErr) :
    coreStage w = { ops := [.listContainers, .inspectOriginal, .stopOriginal, .waitOriginal,
                            .removeOriginal, .createDev, .attachDev, .startDev],
                    outcome := .fatalExit } := by
  have e3 : decide (getContainerIDByName w.containers w.nameArg = none) = false := by
    simp [h4]
  have e9 : decide (w.attach = .exitErr) = true := by simp [ha]
  rw [coreStage_eq w, decide_eq_false h2, h3, e3, h5, h6, h7, h8, h9, e9]
  exact coreStageB_attachErr _ _ _ _ _

theorem coreStageB_postRun (i d r c s : Bool) :
    Op.inspectDev ∈ (coreStageB false true false true true true true true false i d r c s).ops ∧
    (i = true → r = true →
      Op.createOriginal ∈
        (coreStageB false true false true true true true true false i d r c s).ops) ∧
    (i = false →
      (coreStageB false true false true true true true true false i d r c s).outcome = .panicked ∧
      Op.createOriginal ∉
        (coreStageB false true false true true true true true false i d r c s).ops) ∧
    (i = true → r = false →
      (coreStageB false true false true true true true true false i d r c s).outcome = .fatalExit ∧
      Op.createOriginal ∉
        (coreStageB false true false true true true true true false i d r c s).ops ∧
      Op.removeDev ∈ (coreStageB false true false true true true true true false i d r c s).ops) := by
  revert i d r c s
  decide

theorem coreStage_postRun (w : World) (h2 : ¬ w.nameArg = "")
    (h3 : w.clientOk = true) (id : String)
    (h4 : getContainerIDByName w.containers w.nameArg = some id)
    (h5 : w.inspectOk = true) (h6 : w.stopOrigOk = true) (h7 : w.removeOrigOk = true)
    (h8 : w.createDevOk = true) (h9 : w.startDevOk = true)
    (ha : w.attach = .exitOk) :
    Op.inspectDev ∈ (coreStage w).ops ∧
    (w.inspectDevOk = true → w.removeDevOk = true →
      Op.createOriginal ∈ (coreStage w).ops) ∧
    (w.inspectDevOk = false → (coreStage w).outcome = .panicked ∧
      Op.createOriginal ∉ (coreStage w).ops) ∧
    (w.inspectDevOk = true → w.removeDevOk = false →
      (coreStage w).outcome = .fatalExit ∧
      Op.createOriginal ∉ (coreStage w).ops ∧ Op.removeDev ∈ (coreStage w).ops) := by
  have e3 : decide (getContainerIDByName w.containers w.nameArg = none) = false := by
    simp [h4]
  have e9 : decide (w.attach = .exitErr) = false := by simp [ha]
  rw [coreStage_eq w, decide_eq_false h2, h3, e3, h5, h6, h7, h8, h9, e9]
  exact coreStageB_postRun w.inspectDevOk w.devRunning w.removeDevOk
    w.createOrigOk w.startOrigOk

theorem lastIndexOf_of_not_mem (l : List Char) (c : Char) (h : c ∉ l) :
    lastIndexOf l c = -1 := by
  induction l with
  | nil => rfl
  | cons x rest ih =>
    have hx : ¬ x = c := fun he => h (by simp [he])
    have hr : lastIndexOf rest c = -1 := ih (fun hm => h (by simp [hm]))
    simp [lastIndexOf, hr, hx]

theorem lastIndexOf_append_cons (s t : List Char) (c : Char) (h : c ∉ t) :
    lastIndexOf (s ++ c :: t) c = (s.length : Int) := by
  induction s with
  | nil =>
    have hr := lastIndexOf_of_not_mem t c h
    simp [lastIndexOf, hr]
  | cons x s' ih =>
    have h0 : (0 : Int) ≤ (s'.length : Int) := by positivity
    simp only [List.cons_append, lastIndexOf, List.append_eq, ih, if_pos h0,
      List.length_cons]
    push_cast
    ring

theorem notin_append {α : Type} {a : α} {l1 l2 : List α}
    (h1 : a ∉ l1) (h2 : a ∉ l2) : a ∉ l1 ++ l2 := by
  intro hm
  rcases List.mem_append.mp hm with h | h
  · exact h1 h
  · exact h2 h

theorem mk_ne_empty_of_ne_nil (l : List Char) (h : l ≠ []) :
    String.mk l ≠ "" := by
  intro he
  exact h (congrArg String.data he)

theorem deliverAll_cons_mk (e : TermSource) (rest : List TermSource) :
    deliverAll mkSigChan (e :: rest) = ({ cap := 1, buf := [e] }, rest) := by
  have h2 := deliverAll_of_full rest { cap := 1, buf := [e] } (by simp)
  simp [deliverAll, SigChan.trySend, mkSigChan, h2]

/-- The clone-target computation on a URL decomposed around its last
separator and last dot: for `a ++ "/" ++ b ++ "." ++ c` with no separator in
`b` or `c` and no dot in `c`, the slice evaluates to `b`. -/
theorem cloneTargetDir_structure (a b c : List Char)
    (hb : '/' ∉ b) (hc : '/' ∉ c) (hcd : '.' ∉ c) :
    cloneTargetDir (String.mk (a ++ '/' :: (b ++ '.' :: c))) =
      some ("/tmp/" ++ String.mk b) := by
  have hs : lastIndexOf (a ++ '/' :: (b ++ '.' :: c)) '/' = (a.length : Int) := by
    apply lastIndexOf_append_cons
    intro hm
    rcases List.mem_append.mp hm with h | h
    · exact hb h
    · rcases List.mem_cons.mp h with h | h
      · exact absurd h (by decide)
      · exact hc h
  have hassoc : a ++ '/' :: (b ++ '.' :: c) = (a ++ '/' :: b) ++ '.' :: c := by
    simp
  have hd : lastIndexOf (a ++ '/' :: (b ++ '.' :: c)) '.' =
      ((a.length + 1 + b.length : Nat) : Int) := by
    rw [hassoc, lastIndexOf_append_cons _ _ _ hcd]
    push_cast [List.length_append, List.length_cons]
    ring
  unfold cloneTargetDir
  rw [show (String.mk (a ++ '/' :: (b ++ '.' :: c))).data = a ++ '/' :: (b ++ '.' :: c)
      from rfl, hs, hd]
  unfold goStringSlice
  rw [show (String.mk (a ++ '/' :: (b ++ '.' :: c))).data = a ++ '/' :: (b ++ '.' :: c)
      from rfl]
  simp only []
  have hlen : ((a ++ '/' :: (b ++ '.' :: c)).length : Int) =
      (a.length : Int) + 1 + b.length + 1 + c.length := by
    push_cast [List.length_append, List.length_cons]
    ring
  rw [if_pos (by rw [hlen]; omega :
    (0 : Int) ≤ (a.length : Int) + 1 ∧
    (a.length : Int) + 1 ≤ ((a.length + 1 + b.length : Nat) : Int) ∧
    ((a.length + 1 + b.length : Nat) : Int) ≤ ((a ++ '/' :: (b ++ '.' :: c)).length : Int))]
  rw [Option.map_some']
  have htn1 : ((a.length : Int) + 1).toNat = a.length + 1 := by omega
  have htn2 : (((a.length + 1 + b.length : Nat) : Int) - ((a.length : Int) + 1)).toNat =
      b.length := by omega
  rw [htn1, htn2]
  have hdrop : (a ++ '/' :: (b ++ '.' :: c)).drop (a.length + 1) = b ++ '.' :: c := by
    have : a ++ '/' :: (b ++ '.' :: c) = (a ++ ['/']) ++ (b ++ '.' :: c) := by simp
    rw [this, List.drop_left' (by simp)]
  have htake : (b ++ '.' :: c).take b.length = b := List.take_left' rfl
  rw [hdrop, htake]
  rfl

/-! ## Concrete fixtures for witnesses and counterexamples -/

/-- A world in which every external call succeeds. -/
def okWorld : World :=
  { remote := "", source := "/src", nameArg := "api", targetDirExists := false,
    cloneOk := true, clientOk := true,
    containers := [{ id := "cid", names := ["/api"] }],
    inspectOk := true, stopOrigOk := true, removeOrigOk := true, createDevOk := true,
    startDevOk := true, attach := .exitOk, inspectDevOk := true, devRunning := true,
    stopDevOk := true, removeDevOk := true, createOrigOk := true, startOrigOk := true }

/-- A concrete snapshot of an original container. -/
def cj0 : ContainerJSON :=
  { config :=
      { image := "orig:1", workingDir := "/w", cmd := ["serve"],
        entrypoint := ["/bin/start"], env := ["PATH=/usr/bin"],
        attachStdin := false, attachStdout := false, attachStderr := false,
        tty := false, openStdin := false, stdinOnce := false,
        user := "u", labels := [("k", "v")] },
    hostConfig := { mounts := [{ type := "bind", source := "/data", target := "/data" }],
                    binds := ["b"] },
    name := "/api",
    networks := [("bridge", "ep")] }

/-- The derived dev configuration for `cj0`. -/
def devOut0 : Config × HostConfig × NetworkingConfig :=
  (devContainerConfiguration cj0 "img" "/s" "/t" "/home").get (by decide)

/-! ## Claims -/

/-- C3: deriving the dev configuration leaves the snapshot unchanged — the
snapshot's image, command, entrypoint, environment view, mounts and name are
observationally unaffected (the deriver's appends to the shared environment
backing array never touch the snapshot's view), and RECREATE_ORIGINAL
creates from exactly the original config, host config, name, and the
original network configuration. -/
theorem claim_C3_snapshot_frame (cj : ContainerJSON) (img src tgt home : String)
    (out : Config × HostConfig × NetworkingConfig)
    (s : GoSlice String) (path : String)
    (h : devContainerConfiguration cj img src tgt home = some out)
    (hs : s.len ≤ s.backing.length) :
    recreateCreateArgs cj out.2.2 =
      { config := cj.config, hostConfig := cj.hostConfig,
        networkingConfig := { endpointsConfig := cj.networks }, name := cj.name } ∧
    GoSlice.view { backing := envBackingAfterDerive s path, len := s.len } = s.view := by
  obtain ⟨_, hn⟩ := devConfig_parts cj img src tgt home out h
  constructor
  · unfold recreateCreateArgs
    rw [hn]
  · exact envBackingAfterDerive_view s path hs

theorem claim_C3_witness :
    recreateCreateArgs cj0 devOut0.2.2 =
      { config := cj0.config, hostConfig := cj0.hostConfig,
        networkingConfig := { endpointsConfig := cj0.networks }, name := cj0.name } ∧
    GoSlice.view { backing := envBackingAfterDerive ⟨["PATH=/usr/bin"], 1⟩ "p", len := 1 } =
      GoSlice.view ⟨["PATH=/usr/bin"], 1⟩ :=
  claim_C3_snapshot_frame cj0 "img" "/s" "/t" "/home" devOut0
    ⟨["PATH=/usr/bin"], 1⟩ "p" (by decide) (by decide)

/-- C5 counterexample: the claim fails as stated. On an environment with a
short entry (`["A=1"]`, no `PATH` variable) the scan faults instead of
degrading gracefully; on the empty environment the deriver succeeds but the
result has two more entries (the derived `PATH` and the marker), not one. -/
theorem claim_C5_counterexample :
    deriveEnv ["A=1"] = none ∧
    ¬ ((deriveEnv []).map List.length = some (([] : List String).length + 1)) := by
  decide

/-- C5 (amended): for every environment whose entries all have length at
least four and none of which starts with the four characters `PATH`, the
deriver does not fault and returns the input plus exactly two entries: the
bare toolchain suffix (the `PATH` value degraded to empty) and the marker
variable. -/
theorem claim_C5_no_path_degrades (env : List String)
    (h : ∀ e ∈ env, 4 ≤ e.length ∧ e.take 4 ≠ "PATH") :
    deriveEnv env = some (env ++ [toolchainSuffix, "DEV_CONTAINER=true"]) ∧
    (env ++ [toolchainSuffix, "DEV_CONTAINER=true"]).length = env.length + 2 := by
  constructor
  · unfold deriveEnv
    rw [findPathEntry_of_no_path env h]
    rfl
  · simp

theorem claim_C5_witness :
    deriveEnv ["HOME=/root"] =
      some (["HOME=/root"] ++ [toolchainSuffix, "DEV_CONTAINER=true"]) ∧
    (["HOME=/root"] ++ [toolchainSuffix, "DEV_CONTAINER=true"]).length =
      (["HOME=/root"] : List String).length + 2 :=
  claim_C5_no_path_degrades ["HOME=/root"] (by decide)

/-- C6: whenever the deriver produces a configuration, the derived host
configuration's mount list is replaced with exactly these four bind mounts
in this order: source→target, `$HOME/.ssh`→`/root/.ssh`,
`$HOME/.gitconfig`→`/root/.gitconfig`, `$HOME/go/pkg`→`/go/pkg`. -/
theorem claim_C6_mounts (cj : ContainerJSON) (img src tgt home : String)
    (out : Config × HostConfig × NetworkingConfig)
    (h : devContainerConfiguration cj img src tgt home = some out) :
    out.2.1.mounts =
      [ { type := "bind", source := src, target := tgt },
        { type := "bind", source := home ++ "/.ssh", target := "/root/.ssh" },
        { type := "bind", source := home ++ "/.gitconfig", target := "/root/.gitconfig" },
        { type := "bind", source := home ++ "/go/pkg", target := "/go/pkg" } ] := by
  obtain ⟨hh, _⟩ := devConfig_parts cj img src tgt home out h
  rw [hh]
  rfl

theorem claim_C6_witness :
    devOut0.2.1.mounts =
      [ { type := "bind", source := "/s", target := "/t" },
        { type := "bind", source := "/home" ++ "/.ssh", target := "/root/.ssh" },
        { type := "bind", source := "/home" ++ "/.gitconfig", target := "/root/.gitconfig" },
        { type := "bind", source := "/home" ++ "/go/pkg", target := "/go/pkg" } ] :=
  claim_C6_mounts cj0 "img" "/s" "/t" "/home" devOut0 (by decide)

/-- C4: all termination sources funnel into the single-slot (capacity-one)
channel and the controller performs exactly one receive: for any non-empty
firing sequence, exactly one event is observed — the first to fire — and
every later firing is never read. -/
theorem claim_C4_single_termination (fs : List TermSource) (h : fs ≠ []) :
    mkSigChan.cap = 1 ∧
    controllerObserved fs = [fs.head h] ∧
    (controllerObserved fs).length = 1 := by
  cases fs with
  | nil => exact absurd rfl h
  | cons e rest =>
    have hobs : controllerObserved (e :: rest) = [e] := by
      unfold controllerObserved
      rw [deliverAll_cons_mk e rest]
      rfl
    exact ⟨rfl, hobs, by rw [hobs]; rfl⟩

theorem claim_C4_witness :
    mkSigChan.cap = 1 ∧
    controllerObserved
        [TermSource.devContainerExit, TermSource.externalInterrupt,
         TermSource.attachInterrupt] = [TermSource.devContainerExit] ∧
    (controllerObserved
        [TermSource.devContainerExit, TermSource.externalInterrupt,
         TermSource.attachInterrupt]).length = 1 :=
  claim_C4_single_termination
    [TermSource.devContainerExit, TermSource.externalInterrupt,
     TermSource.attachInterrupt] (by decide)

/-- C7: the lookup returns the ID of the first listed container whose name
list contains the separator-prefixed form of the supplied name, and when no
container matches the process exits non-zero before any container is
stopped, removed or created. -/
theorem claim_C7_locate (cs : List ContainerSummary) (n : String) (w : World)
    (hclone : (cloneStage w).outcome = .completed) (h2 : ¬ w.nameArg = "")
    (h3 : w.clientOk = true)
    (hnone : getContainerIDByName w.containers w.nameArg = none) :
    getContainerIDByName cs n = specFirstMatch cs n ∧
    (mainRun w).outcome = .fatalExit ∧
    Op.stopOriginal ∉ (mainRun w).ops ∧ Op.removeOriginal ∉ (mainRun w).ops ∧
    Op.createDev ∉ (mainRun w).ops ∧ Op.stopDev ∉ (mainRun w).ops ∧
    Op.removeDev ∉ (mainRun w).ops ∧ Op.createOriginal ∉ (mainRun w).ops := by
  have e3 : decide (getContainerIDByName w.containers w.nameArg = none) = true := by
    simp [hnone]
  have hk : coreStage w = { ops := [.listContainers], outcome := .fatalExit } := by
    rw [coreStage_eq w, decide_eq_false h2, h3, e3]
    rfl
  rw [mainRun_of_cloneDone w hclone, hk]
  refine ⟨getContainerIDByName_eq_specFirstMatch cs n, rfl, ?_, ?_, ?_, ?_, ?_, ?_⟩ <;>
    exact notin_append
      (notin_cloneStage w _ (by decide) (by decide) (by decide)) (by decide)

theorem claim_C7_witness :
    getContainerIDByName
        [{ id := "cid1", names := ["/api"] }, { id := "cid2", names := ["/api"] }] "api" =
      specFirstMatch
        [{ id := "cid1", names := ["/api"] }, { id := "cid2", names := ["/api"] }] "api" ∧
    (mainRun { okWorld with containers := [] }).outcome = .fatalExit ∧
    Op.stopOriginal ∉ (mainRun { okWorld with containers := [] }).ops ∧
    Op.removeOriginal ∉ (mainRun { okWorld with containers := [] }).ops ∧
    Op.createDev ∉ (mainRun { okWorld with containers := [] }).ops ∧
    Op.stopDev ∉ (mainRun { okWorld with containers := [] }).ops ∧
    Op.removeDev ∉ (mainRun { okWorld with containers := [] }).ops ∧
    Op.createOriginal ∉ (mainRun { okWorld with containers := [] }).ops :=
  claim_C7_locate
    [{ id := "cid1", names := ["/api"] }, { id := "cid2", names := ["/api"] }] "api"
    { okWorld with containers := [] } (by decide) (by decide) rfl rfl

/-- C8: the snapshot inspect of the original container always precedes its
stop and remove in the operation order, and when the inspect fails the
process aborts (non-completion) with the original container untouched. -/
theorem claim_C8_snapshot_before_teardown (w : World) :
    (Op.stopOriginal ∈ (mainRun w).ops →
      List.Sublist [Op.inspectOriginal, Op.stopOriginal] (mainRun w).ops) ∧
    (Op.removeOriginal ∈ (mainRun w).ops →
      List.Sublist [Op.inspectOriginal, Op.removeOriginal] (mainRun w).ops) ∧
    (w.inspectOk = false →
      Op.stopOriginal ∉ (mainRun w).ops ∧ Op.removeOriginal ∉ (mainRun w).ops ∧
      (mainRun w).outcome ≠ .completed) := by
  by_cases hc : (cloneStage w).outcome = .completed
  · rw [mainRun_of_cloneDone w hc]
    obtain ⟨o1, o2⟩ := coreStage_snapshot_order w
    refine ⟨?_, ?_, ?_⟩
    · intro hm
      have hmc : Op.stopOriginal ∈ (coreStage w).ops := by
        rcases List.mem_append.mp hm with h | h
        · exact absurd h (notin_cloneStage w _ (by decide) (by decide) (by decide))
        · exact h
      exact (o1 hmc).trans (List.sublist_append_right _ _)
    · intro hm
      have hmc : Op.removeOriginal ∈ (coreStage w).ops := by
        rcases List.mem_append.mp hm with h | h
        · exact absurd h (notin_cloneStage w _ (by decide) (by decide) (by decide))
        · exact h
      exact (o2 hmc).trans (List.sublist_append_right _ _)
    · intro hi
      obtain ⟨n1, n2, no⟩ := coreStage_inspectFail w hi
      refine ⟨notin_append (notin_cloneStage w _ (by decide) (by decide) (by decide)) n1,
              notin_append (notin_cloneStage w _ (by decide) (by decide) (by decide)) n2,
              ?_⟩
      show (coreStage w).outcome ≠ .completed
      rw [no]
      decide
  · rw [mainRun_of_cloneStuck w hc]
    exact ⟨fun hm => absurd hm (notin_cloneStage w _ (by decide) (by decide) (by decide)),
           fun hm => absurd hm (notin_cloneStage w _ (by decide) (by decide) (by decide)),
           fun _ => ⟨notin_cloneStage w _ (by decide) (by decide) (by decide),
                     notin_cloneStage w _ (by decide) (by decide) (by decide), hc⟩⟩

theorem claim_C8_witness :
    List.Sublist [Op.inspectOriginal, Op.stopOriginal] (mainRun okWorld).ops ∧
    Op.stopOriginal ∉ (mainRun { okWorld with inspectOk := false }).ops ∧
    (mainRun { okWorld with inspectOk := false }).outcome ≠ .completed :=
  ⟨(claim_C8_snapshot_before_teardown okWorld).1 (by decide),
   ((claim_C8_snapshot_before_teardown { okWorld with inspectOk := false }).2.2 rfl).1,
   ((claim_C8_snapshot_before_teardown { okWorld with inspectOk := false }).2.2 rfl).2.2⟩

/-- C1 counterexample: when the attach process fails (its `cmd.Run` returns
an error), the watcher goroutine calls `log.Fatalf` (src/main.go 120), so
the process aborts fatally without TEARDOWN_DEV or RECREATE_ORIGINAL —
contradicting the claim that an attach failure is surfaced as a termination
event and the controller still proceeds. -/
theorem claim_C1_counterexample :
    (mainRun { okWorld with attach := .exitErr }).outcome = .fatalExit ∧
    Op.inspectDev ∉ (mainRun { okWorld with attach := .exitErr }).ops ∧
    Op.stopDev ∉ (mainRun { okWorld with attach := .exitErr }).ops ∧
    Op.removeDev ∉ (mainRun { okWorld with attach := .exitErr }).ops ∧
    Op.createOriginal ∉ (mainRun { okWorld with attach := .exitErr }).ops := by
  decide

/-- C1 (amended): if the attach process exits cleanly its completion is
surfaced as a synthetic interrupt on the termination channel and the
controller proceeds through TEARDOWN_DEV (and, when teardown succeeds,
RECREATE_ORIGINAL); if the attach process fails, the watcher's `log.Fatalf`
aborts the process without teardown or recreation. -/
theorem claim_C1_attach_termination (w : World)
    (h2 : ¬ w.nameArg = "") (h3 : w.clientOk = true) (id : String)
    (h4 : getContainerIDByName w.containers w.nameArg = some id)
    (h5 : w.inspectOk = true) (h6 : w.stopOrigOk = true) (h7 : w.removeOrigOk = true)
    (h8 : w.createDevOk = true) (h9 : w.startDevOk = true)
    (hclone : (cloneStage w).outcome = .completed) :
    (w.attach = .exitOk →
      controllerObserved [TermSource.attachInterrupt] = [TermSource.attachInterrupt] ∧
      Op.inspectDev ∈ (mainRun w).ops ∧
      (w.inspectDevOk = true → w.removeDevOk = true →
        Op.createOriginal ∈ (mainRun w).ops)) ∧
    (w.attach = .exitErr →
      (mainRun w).outcome = .fatalExit ∧
      Op.inspectDev ∉ (mainRun w).ops ∧ Op.stopDev ∉ (mainRun w).ops ∧
      Op.removeDev ∉ (mainRun w).ops ∧ Op.createOriginal ∉ (mainRun w).ops) := by
  rw [mainRun_of_cloneDone w hclone]
  constructor
  · intro ha
    obtain ⟨hi, hcr, _, _⟩ := coreStage_postRun w h2 h3 id h4 h5 h6 h7 h8 h9 ha
    refine ⟨rfl, List.mem_append.mpr (Or.inr hi), fun hI hR => ?_⟩
    exact List.mem_append.mpr (Or.inr (hcr hI hR))
  · intro ha
    have hk := coreStage_attachErr w h2 h3 id h4 h5 h6 h7 h8 h9 ha
    rw [hk]
    refine ⟨rfl, ?_, ?_, ?_, ?_⟩ <;>
      exact notin_append
        (notin_cloneStage w _ (by decide) (by decide) (by decide)) (by decide)

theorem claim_C1_witness :
    controllerObserved [TermSource.attachInterrupt] = [TermSource.attachInterrupt] ∧
    Op.inspectDev ∈ (mainRun okWorld).ops ∧
    Op.createOriginal ∈ (mainRun okWorld).ops := by
  have h := (claim_C1_attach_termination okWorld (by decide) rfl "cid" (by decide)
    rfl rfl rfl rfl rfl (by decide)).1 rfl
  exact ⟨h.1, h.2.1, h.2.2 rfl rfl⟩

/-- C2 counterexample: not every dev-teardown failure is tolerated. A
failing dev-container inspect panics (src/main.go 72) and a failing remove
calls `log.Fatalf` (src/main.go 82); in both cases the process ends before
RECREATE_ORIGINAL is attempted. -/
theorem claim_C2_counterexample :
    (mainRun { okWorld with inspectDevOk := false }).outcome = .panicked ∧
    Op.createOriginal ∉ (mainRun { okWorld with inspectDevOk := false }).ops ∧
    (mainRun { okWorld with removeDevOk := false }).outcome = .fatalExit ∧
    Op.createOriginal ∉ (mainRun { okWorld with removeDevOk := false }).ops := by
  decide

/-- C2 (amended): during TEARDOWN_DEV only the stop call's failure is
tolerated (its error is discarded and RECREATE_ORIGINAL is still reached);
a failing dev inspect panics and a failing dev remove exits fatally, in
both cases before the original container's recreation is attempted. -/
theorem claim_C2_teardown_tolerance (w : World)
    (h2 : ¬ w.nameArg = "") (h3 : w.clientOk = true) (id : String)
    (h4 : getContainerIDByName w.containers w.nameArg = some id)
    (h5 : w.inspectOk = true) (h6 : w.stopOrigOk = true) (h7 : w.removeOrigOk = true)
    (h8 : w.createDevOk = true) (h9 : w.startDevOk = true)
    (hclone : (cloneStage w).outcome = .completed)
    (ha : w.attach = .exitOk) :
    mainRun { w with stopDevOk := false } = mainRun { w with stopDevOk := true } ∧
    (w.inspectDevOk = true → w.removeDevOk = true →
      Op.createOriginal ∈ (mainRun w).ops) ∧
    (w.inspectDevOk = false →
      (mainRun w).outcome = .panicked ∧ Op.createOriginal ∉ (mainRun w).ops) ∧
    (w.inspectDevOk = true → w.removeDevOk = false →
      (mainRun w).outcome = .fatalExit ∧ Op.createOriginal ∉ (mainRun w).ops ∧
      Op.removeDev ∈ (mainRun w).ops) := by
  obtain ⟨_, hcr, hpan, hrem⟩ := coreStage_postRun w h2 h3 id h4 h5 h6 h7 h8 h9 ha
  rw [mainRun_of_cloneDone w hclone]
  refine ⟨rfl, ?_, ?_, ?_⟩
  · intro hI hR
    exact List.mem_append.mpr (Or.inr (hcr hI hR))
  · intro hI
    obtain ⟨ho, hn⟩ := hpan hI
    exact ⟨ho, notin_append
      (notin_cloneStage w _ (by decide) (by decide) (by decide)) hn⟩
  · intro hI hR
    obtain ⟨ho, hn, hm⟩ := hrem hI hR
    exact ⟨ho, notin_append
      (notin_cloneStage w _ (by decide) (by decide) (by decide)) hn,
      List.mem_append.mpr (Or.inr hm)⟩

theorem claim_C2_witness :
    mainRun { okWorld with stopDevOk := false } =
      mainRun { okWorld with stopDevOk := true } ∧
    Op.createOriginal ∈ (mainRun okWorld).ops := by
  have h := claim_C2_teardown_tolerance okWorld (by decide) rfl "cid" (by decide)
    rfl rfl rfl rfl rfl (by decide) rfl
  exact ⟨h.1, h.2.1 rfl rfl⟩

/-- C9 counterexample: the computed repository name strips at the last dot,
not at a `.git` suffix — on `git@host:org/repo.tar` the code yields
`/tmp/repo` while the claimed rule yields `/tmp/repo.tar` — and on a URL
with no dot after the last separator the slicing faults instead of
computing a directory. -/
theorem claim_C9_counterexample :
    cloneTargetDir "git@host:org/repo.tar" = some "/tmp/repo" ∧
    specCloneTargetDir "git@host:org/repo.tar" = "/tmp/repo.tar" ∧
    ¬ cloneTargetDir "git@host:org/repo.tar" =
        some (specCloneTargetDir "git@host:org/repo.tar") ∧
    cloneTargetDir "git@host:org/repo" = none ∧
    specCloneTargetDir "git@host:org/repo" = "/tmp/repo" := by
  decide

/-- C9 (amended): for every remote URL of the shape `a ++ "/" ++ b ++ "." ++ c`
with no separator in `b` or `c` and no dot in `c` (so the last separator and
last dot delimit `b`), the clone step computes the target directory
`"/tmp/" ++ b` — the segment strictly between the last `/` and the last `.`,
which equals stripping the `.git` suffix exactly when `c = "git"` and `b` is
the basename — removes any pre-existing directory at that path before
cloning, and the resulting path becomes the source mount before the
container swap begins. -/
theorem claim_C9_clone_amended (a b c : List Char) (w : World)
    (cj : ContainerJSON) (img tgt home : String)
    (out : Config × HostConfig × NetworkingConfig)
    (hb : '/' ∉ b) (hc : '/' ∉ c) (hcd : '.' ∉ c)
    (hrem : w.remote = String.mk (a ++ '/' :: (b ++ '.' :: c))) :
    cloneTargetDir w.remote = some ("/tmp/" ++ String.mk b) ∧
    effectiveSource w = "/tmp/" ++ String.mk b ∧
    (w.targetDirExists = true →
      List.Sublist [Op.statDir, Op.removeDir, Op.gitClone] (mainRun w).ops) ∧
    (Op.stopOriginal ∈ (mainRun w).ops →
      List.Sublist [Op.gitClone, Op.stopOriginal] (mainRun w).ops) ∧
    (devContainerConfiguration cj img (effectiveSource w) tgt home = some out →
      out.2.1.mounts.head? =
        some { type := "bind", source := "/tmp/" ++ String.mk b, target := tgt }) := by
  have h1 : cloneTargetDir w.remote = some ("/tmp/" ++ String.mk b) := by
    rw [hrem]
    exact cloneTargetDir_structure a b c hb hc hcd
  have hne : w.remote ≠ "" := by
    rw [hrem]
    exact mk_ne_empty_of_ne_nil _ (by simp)
  have h2 : effectiveSource w = "/tmp/" ++ String.mk b := by
    unfold effectiveSource
    rw [if_neg hne, h1]
    rfl
  have er : decide (w.remote = "") = false := decide_eq_false hne
  have et : decide (cloneTargetDir w.remote = none) = false := by simp [h1]
  refine ⟨h1, h2, ?_, ?_, ?_⟩
  · intro hdir
    have hops : (cloneStage w).ops = [Op.statDir, Op.removeDir, Op.gitClone] := by
      unfold cloneStage
      rw [er, et, hdir]
      rfl
    by_cases hco : (cloneStage w).outcome = .completed
    · rw [mainRun_of_cloneDone w hco]
      rw [show ({ ops := (cloneStage w).ops ++ (coreStage w).ops,
                  outcome := (coreStage w).outcome } : Run).ops =
            (cloneStage w).ops ++ (coreStage w).ops from rfl, hops]
      exact List.sublist_append_left _ _
    · rw [mainRun_of_cloneStuck w hco]
      rw [hops]
  · intro hm
    have hgit : Op.gitClone ∈ (cloneStage w).ops := by
      unfold cloneStage
      rw [er, et]
      cases hdd : w.targetDirExists <;> cases hcc : w.cloneOk <;> decide
    by_cases hco : (cloneStage w).outcome = .completed
    · rw [mainRun_of_cloneDone w hco] at hm ⊢
      have hmc : Op.stopOriginal ∈ (coreStage w).ops := by
        rcases List.mem_append.mp hm with h | h
        · exact absurd h (notin_cloneStage w _ (by decide) (by decide) (by decide))
        · exact h
      exact List.Sublist.append (List.singleton_sublist.mpr hgit)
        (List.singleton_sublist.mpr hmc)
    · rw [mainRun_of_cloneStuck w hco] at hm
      exact absurd hm (notin_cloneStage w _ (by decide) (by decide) (by decide))
  · intro hout
    obtain ⟨hh, _⟩ := devConfig_parts cj img (effectiveSource w) tgt home out hout
    rw [hh]
    show (devMounts home (effectiveSource w) tgt).head? = _
    rw [h2]
    rfl

/-- The world of the C9 witness scenario. -/
def w9 : World :=
  { okWorld with remote := "git@host:org/repo.git", targetDirExists := true }

theorem claim_C9_witness :
    cloneTargetDir w9.remote = some "/tmp/repo" ∧
    effectiveSource w9 = "/tmp/repo" ∧
    List.Sublist [Op.statDir, Op.removeDir, Op.gitClone] (mainRun w9).ops := by
  have h := claim_C9_clone_amended "git@host:org".data "repo".data "git".data w9
    cj0 "img" "/t" "/home" devOut0 (by decide) (by decide) (by decide) (by decide)
  exact ⟨h.1, h.2.1, h.2.2.1 rfl⟩

/-- C10: with `-remote` set, the clone step — including the irreversible
removal of a pre-existing directory at the computed `/tmp` path — runs
before the required `-name` flag is validated: an invocation supplying
`-remote` but no `-name` still performs the removal and the clone, then
exits fatally having touched no container. -/
theorem claim_C10_clone_before_validation (w : World) (d : String)
    (hrem : w.remote ≠ "") (hname : w.nameArg = "")
    (htd : cloneTargetDir w.remote = some d)
    (hdir : w.targetDirExists = true) (hok : w.cloneOk = true) :
    (mainRun w).ops = [Op.statDir, Op.removeDir, Op.gitClone] ∧
    (mainRun w).outcome = .fatalExit ∧
    Op.removeDir ∈ (mainRun w).ops ∧ Op.gitClone ∈ (mainRun w).ops ∧
    Op.listContainers ∉ (mainRun w).ops ∧ Op.stopOriginal ∉ (mainRun w).ops ∧
    Op.createDev ∉ (mainRun w).ops := by
  have er : decide (w.remote = "") = false := decide_eq_false hrem
  have et : decide (cloneTargetDir w.remote = none) = false := by simp [htd]
  have hcs : cloneStage w =
      { ops := [Op.statDir, Op.removeDir, Op.gitClone], outcome := .completed } := by
    unfold cloneStage
    rw [er, et, hdir, hok]
    rfl
  have hcore : coreStage w = { ops := [], outcome := .fatalExit } := by
    rw [coreStage_eq w, decide_eq_true hname]
    rfl
  rw [mainRun_of_cloneDone w (by rw [hcs]), hcs, hcore]
  decide

theorem claim_C10_witness :
    (mainRun { w9 with nameArg := "" }).ops = [Op.statDir, Op.removeDir, Op.gitClone] ∧
    (mainRun { w9 with nameArg := "" }).outcome = .fatalExit ∧
    Op.removeDir ∈ (mainRun { w9 with nameArg := "" }).ops ∧
    Op.gitClone ∈ (mainRun { w9 with nameArg := "" }).ops ∧
    Op.listContainers ∉ (mainRun { w9 with nameArg := "" }).ops ∧
    Op.stopOriginal ∉ (mainRun { w9 with nameArg := "" }).ops ∧
    Op.createDev ∉ (mainRun { w9 with nameArg := "" }).ops :=
  claim_C10_clone_before_validation { w9 with nameArg := "" } "/tmp/repo"
    (by decide) rfl (by decide) rfl rfl

end DockerDev
